import Mathlib

/-!
Verification of the drowsiness-detection core of `src/drows_streamlit.py`
(SmartRailShield). The development shallowly embeds:

* the per-face two-pass eye detection (lines 207-229) — the OpenCV cascade
  call `eye_cascade.detectMultiScale(roi, ...)` is opaque, so each face is
  modelled as a function from detector parameters to the list of eye
  regions that call would return on that face's cropped sub-image;
* the per-frame face loop computing `drowsy` and `eyes_detected`
  (lines 199-233);
* the drowsiness state machine over the session state
  `closed_start / alarm_on / play_alarm / total_alerts` (lines 239-276),
  with wall-clock time passed in explicitly as a rational timestamp;
* the per-frame outputs (status banner, counter increment, Firebase push,
  audio element emission, lines 243-298);
* the session control flow around the capture handle (lines 170-316).
-/

namespace SmartRail

/-- Axis-aligned rectangle `(x, y, w, h)` as returned by
`detectMultiScale` (a Region in the spec's data model). -/
structure Region where
  x : ℕ
  y : ℕ
  w : ℕ
  h : ℕ
deriving DecidableEq, Repr

/-- Parameter set of one `eye_cascade.detectMultiScale` invocation:
`scaleFactor`, `minNeighbors`, `minSize`, optional `maxSize`. -/
structure EyeParams where
  scaleFactor : ℚ
  minNeighbors : ℕ
  minSize : ℕ × ℕ
  maxSize : Option (ℕ × ℕ)
deriving DecidableEq, Repr

/-- Strict first-pass parameters (lines 209-215):
`scaleFactor=1.1, minNeighbors=eye_detection_sensitivity,
minSize=(15,15), maxSize=(80,80)`. -/
def strictParams (sensitivity : ℕ) : EyeParams :=
  { scaleFactor := 11/10
    minNeighbors := sensitivity
    minSize := (15, 15)
    maxSize := some (80, 80) }

/-- Lenient second-pass parameters (lines 219-224):
`scaleFactor=1.05, minNeighbors=max(1, eye_detection_sensitivity - 1),
minSize=(12,12)`, no `maxSize`. -/
def lenientParams (sensitivity : ℕ) : EyeParams :=
  { scaleFactor := 21/20
    minNeighbors := max 1 (sensitivity - 1)
    minSize := (12, 12)
    maxSize := none }

/-- A detected face is modelled by the response of the opaque eye matcher
on its cropped region: a function from detector parameters to the eye
Regions the matcher returns. -/
def Face : Type := EyeParams → List Region

/-- Two-pass eye detection for one face (lines 209-226): run the strict
pass; if it found no eyes run the lenient pass. Returns the resulting eye
list together with the number of `detectMultiScale` invocations made. -/
def detectEyesPasses (face : Face) (sensitivity : ℕ) : List Region × ℕ :=
  let eyes := face (strictParams sensitivity)
  if eyes.length = 0 then (face (lenientParams sensitivity), 2) else (eyes, 1)

/-- Eye Regions the loop body ends up with for one face (the value of
`eyes` after lines 209-224). -/
def detectEyes (face : Face) (sensitivity : ℕ) : List Region :=
  (detectEyesPasses face sensitivity).1

/-- Body of the face loop (lines 202-233) restricted to the variables the
logic reads: `drowsy` is cleared when this face has at least one detected
eye, and `eyes_detected` is overwritten with this face's eye count. -/
def faceStep (sensitivity : ℕ) (acc : Bool × ℕ) (face : Face) : Bool × ℕ :=
  let eyes_detected := (detectEyes face sensitivity).length
  (if eyes_detected > 0 then false else acc.1, eyes_detected)

/-- Per-frame classification (lines 199-233): starting from
`drowsy = True, eyes_detected = 0`, fold the loop body over the detected
faces. First component is `drowsy`, second is `eyes_detected`. -/
def classifyFrame (sensitivity : ℕ) (faces : List Face) : Bool × ℕ :=
  faces.foldl (faceStep sensitivity) (true, 0)

/-- Session state mutated once per frame (lines 111-118): the
`closed_start` timestamp (None or a wall-clock time), the `alarm_on`
latch, the `play_alarm` flag feeding the audio element, and the
`total_alerts` counter. Timestamps are rationals. -/
structure DrowsinessState where
  closed_start : Option ℚ
  alarm_on : Bool
  play_alarm : Bool
  total_alerts : ℕ
deriving DecidableEq, Repr

/-- Initial session state (lines 111-118): no closed-eyes timer, alarm
off, counter zero. -/
def initState : DrowsinessState :=
  { closed_start := none, alarm_on := false, play_alarm := false, total_alerts := 0 }

/-- Drowsiness state update for one frame (lines 239-276). `drowsy` is
the frame classification, `now` the value of `time.time()` at this frame,
`sensitivity` the threshold slider in seconds. On a drowsy frame: start
the timer if unset, else once `now - closed_start > sensitivity` latch the
alarm and (on the latching frame only) increment `total_alerts` and set
`play_alarm`. On a non-drowsy frame clear timer, alarm and `play_alarm`. -/
def stepFrame (sensitivity : ℚ) (s : DrowsinessState) (drowsy : Bool) (now : ℚ) :
    DrowsinessState :=
  if drowsy then
    match s.closed_start with
    | none => { s with closed_start := some now }
    | some cs =>
      if now - cs > sensitivity then
        if s.alarm_on then s
        else { s with alarm_on := true, total_alerts := s.total_alerts + 1,
                      play_alarm := true }
      else s
  else
    { s with closed_start := none, alarm_on := false, play_alarm := false }

/-- Frame update driven by the eyes-open boolean of the spec: a frame is
a pair `(eyes_open_this_frame, timestamp)` and `drowsy` is its negation
(lines 199-229 make `drowsy` true exactly when no face shows eyes). -/
def stepEyesOpen (sensitivity : ℚ) (s : DrowsinessState) (frame : Bool × ℚ) :
    DrowsinessState :=
  stepFrame sensitivity s (!frame.1) frame.2

/-- State after feeding a whole list of `(eyes_open, timestamp)` frames
through the per-frame update. -/
def runTrace (sensitivity : ℚ) (s : DrowsinessState) (frames : List (Bool × ℚ)) :
    DrowsinessState :=
  frames.foldl (stepEyesOpen sensitivity) s

/-- Observable per-frame outputs (lines 243-284): whether the ALERT
banner branch ran, whether the edge block ran (counter increment, line
255-258), whether a Firebase push was attempted (lines 261-270), and
whether the audio element was rendered after the update (lines 279-284:
`play_alarm and enable_sound`, read from the post-update state). -/
structure FrameOut where
  statusAlert : Bool
  alertFired : Bool
  firebasePushed : Bool
  audioEmitted : Bool
deriving DecidableEq, Repr

/-- One frame of the loop with its outputs: the state update of
`stepFrame` plus the observable outputs of that iteration. `statusAlert`
holds exactly when the `elif`'s comparison succeeded on a drowsy frame,
`alertFired` when additionally `alarm_on` was not yet latched. -/
def frameResult (sensitivity : ℚ) (enableSound fbEnabled : Bool)
    (s : DrowsinessState) (drowsy : Bool) (now : ℚ) : DrowsinessState × FrameOut :=
  let s' := stepFrame sensitivity s drowsy now
  let statusAlert := drowsy &&
    (match s.closed_start with
     | none => false
     | some cs => decide (now - cs > sensitivity))
  let fired := statusAlert && !s.alarm_on
  (s', { statusAlert := statusAlert
         alertFired := fired
         firebasePushed := fired && fbEnabled
         audioEmitted := s'.play_alarm && enableSound })

/-- Outputs of every iteration along a trace of `(eyes_open, timestamp)`
frames. -/
def frameOutputs (sensitivity : ℚ) (enableSound fbEnabled : Bool)
    (s : DrowsinessState) : List (Bool × ℚ) → List FrameOut
  | [] => []
  | f :: fs =>
    let r := frameResult sensitivity enableSound fbEnabled s (!f.1) f.2
    r.2 :: frameOutputs sensitivity enableSound fbEnabled r.1 fs

/-- Helper for `closedRuns`: `cur` is the (in-order) list of timestamps of
the closed-eyes frames of the run currently being scanned. An eyes-open
frame closes the current run; the trace's end closes a pending run. -/
def closedRunsAux (cur : List ℚ) : List (Bool × ℚ) → List (List ℚ)
  | [] => if cur.isEmpty then [] else [cur]
  | f :: fs =>
    if f.1 then
      (if cur.isEmpty then closedRunsAux [] fs else cur :: closedRunsAux [] fs)
    else closedRunsAux (cur ++ [f.2]) fs

/-- Decomposition of a trace of `(eyes_open, timestamp)` frames into its
maximal contiguous runs of eyes-closed frames, each run given by its list
of timestamps in order. -/
def closedRuns (frames : List (Bool × ℚ)) : List (List ℚ) :=
  closedRunsAux [] frames

/-- Last timestamp of a run (`0` for the empty run). -/
def runLast : List ℚ → ℚ
  | [] => 0
  | [t] => t
  | _ :: t :: ts => runLast (t :: ts)

/-- Specification-side test of one closed-eyes run: its elapsed time
(last timestamp minus first) strictly exceeds the threshold. -/
def runQual (sensitivity : ℚ) (r : List ℚ) : Bool :=
  decide (runLast r - r.headD 0 > sensitivity)

/-- Number of maximal closed-eyes runs of a trace whose elapsed time
exceeds the threshold. -/
def countQualRuns (sensitivity : ℚ) (frames : List (Bool × ℚ)) : ℕ :=
  (closedRuns frames).countP (runQual sensitivity)

/-- Observable resource actions of one detection session
(lines 170-316). -/
inductive SessionAction where
  /-- `cv2.VideoCapture(camera_index, ...)` (line 172). -/
  | acquire
  /-- `cap.release()` (line 308). -/
  | release
  /-- an `st.error(...)` message on a failure path. -/
  | errorShown
deriving DecidableEq, Repr

/-- How the detection loop of an opened session ends. -/
inductive LoopOutcome where
  /-- loop condition became false: stop flag cleared or `max_frames`
  reached (line 190). -/
  | stopped
  /-- `cap.read()` returned `ret = False`: error then `break`
  (lines 192-194). -/
  | readFailure
  /-- an exception escaped the loop body into `except` (lines 303-304). -/
  | matcherFault
deriving DecidableEq, Repr

/-- Actions of the loop's exit path before `finally` runs. -/
def loopExitActions : LoopOutcome → List SessionAction
  | .stopped => []
  | .readFailure => [.errorShown]
  | .matcherFault => [.errorShown]

/-- Actions of the `finally` block (lines 305-311): release only when
`cap is not None and cap.isOpened()`. -/
def finallyActions (opened : Bool) : List SessionAction :=
  if opened then [.release] else []

/-- Resource actions of one session start (lines 170-316): the capture is
constructed; if `cap.isOpened()` is false the code shows an error and
clears the running flag (lines 175-178) without entering the
`try/finally`; otherwise the loop runs to some outcome and `finally`
releases. -/
def sessionActions (opened : Bool) (outcome : LoopOutcome) : List SessionAction :=
  SessionAction.acquire ::
    (if opened then loopExitActions outcome ++ finallyActions opened
     else [SessionAction.errorShown])

/-- Machine/decomposition invariant while scanning a trace: `cur` is the
current (possibly empty) in-progress closed-eyes run; the machine's timer
points at its first frame and the alarm latch records whether the run has
already exceeded the threshold. -/
def curInv (sensitivity : ℚ) (cur : List ℚ) (s : DrowsinessState) : Prop :=
  s.closed_start = cur.head? ∧
    s.alarm_on = decide (runLast cur - cur.headD 0 > sensitivity)

/-- Expected `alertFired` flags while processing a run of closed-eyes
frames with timestamps `ts`, starting from a state whose timer reads `c`
and whose alarm latch reads `a`: a frame fires exactly when the latch is
still clear and its time exceeds `c` by more than the threshold, and
firing sets the latch. -/
def specFires (sensitivity c : ℚ) : Bool → List ℚ → List Bool
  | _, [] => []
  | a, t :: ts =>
    (!a && decide (t - c > sensitivity)) ::
      specFires sensitivity c (a || decide (t - c > sensitivity)) ts

/-- Example face whose eye matcher reports one eye Region under any
parameters. -/
def faceWithEyes : Face := fun _ => [{ x := 10, y := 10, w := 20, h := 20 }]

/-- Example face whose eye matcher reports no eye Region under any
parameters. -/
def faceNoEyes : Face := fun _ => []

/-- Example face whose eye matcher reports one eye Region exactly under
an unbounded-maximum-size (lenient) parameter set. -/
def faceLenientOnly : Face :=
  fun p => if p.maxSize = none then [{ x := 5, y := 5, w := 14, h := 14 }] else []

/-! ### Basic lemmas about the state machine -/

lemma runTrace_nil (sensitivity : ℚ) (s : DrowsinessState) :
    runTrace sensitivity s [] = s := rfl

lemma runTrace_cons (sensitivity : ℚ) (s : DrowsinessState) (f : Bool × ℚ)
    (fs : List (Bool × ℚ)) :
    runTrace sensitivity s (f :: fs) =
      runTrace sensitivity (stepEyesOpen sensitivity s f) fs := rfl

lemma runTrace_append (sensitivity : ℚ) (s : DrowsinessState)
    (l₁ l₂ : List (Bool × ℚ)) :
    runTrace sensitivity s (l₁ ++ l₂) =
      runTrace sensitivity (runTrace sensitivity s l₁) l₂ :=
  List.foldl_append _ _ _ _

lemma total_alerts_step_le (sensitivity : ℚ) (s : DrowsinessState) (d : Bool)
    (t : ℚ) : s.total_alerts ≤ (stepFrame sensitivity s d t).total_alerts := by
  obtain ⟨cs, a, p, k⟩ := s
  cases d <;> cases cs <;> simp [stepFrame] <;> split_ifs <;> simp

lemma total_alerts_run_le (sensitivity : ℚ) (frames : List (Bool × ℚ))
    (s : DrowsinessState) :
    s.total_alerts ≤ (runTrace sensitivity s frames).total_alerts := by
  induction frames generalizing s with
  | nil => simp [runTrace_nil]
  | cons f fs ih =>
    rw [runTrace_cons]
    exact le_trans (total_alerts_step_le sensitivity s (!f.1) f.2) (ih _)

/-! ### Lemmas about run decomposition -/

lemma runLast_cons_cons (a b : ℚ) (l : List ℚ) :
    runLast (a :: b :: l) = runLast (b :: l) := rfl

lemma runLast_concat (l : List ℚ) (a : ℚ) : runLast (l ++ [a]) = a := by
  induction l with
  | nil => rfl
  | cons x xs ih =>
    cases xs with
    | nil => rfl
    | cons y ys => simpa [runLast_cons_cons] using ih

lemma chain'_runLast_le (c : ℚ) (cs : List ℚ) (t : ℚ) (l : List ℚ)
    (h : List.Chain' (· ≤ ·) ((c :: cs) ++ t :: l)) : runLast (c :: cs) ≤ t := by
  induction cs generalizing c with
  | nil =>
    have h' : List.Chain' (· ≤ ·) (c :: t :: l) := by simpa using h
    exact (List.chain'_cons.mp h').1
  | cons c' cs' ih =>
    have h' : List.Chain' (· ≤ ·) ((c' :: cs') ++ t :: l) := by
      simpa using (List.chain'_cons.mp (by simpa using h)).2
    simpa [runLast_cons_cons] using ih c' h'

/-- Core counting lemma: along a time-monotone trace, the final counter
(plus one pending unit when the alarm is already latched, which the
in-progress run will account for) equals the starting counter plus the
number of qualifying closed-eyes runs of the remaining trace. -/
lemma total_alerts_counts_runs (sensitivity : ℚ) (h0 : 0 ≤ sensitivity) :
    ∀ (frames : List (Bool × ℚ)) (cur : List ℚ) (s : DrowsinessState),
      List.Chain' (· ≤ ·) (cur ++ frames.map Prod.snd) →
      curInv sensitivity cur s →
      (runTrace sensitivity s frames).total_alerts
          + (if s.alarm_on then 1 else 0)
        = s.total_alerts + (closedRunsAux cur frames).countP (runQual sensitivity) := by
  intro frames
  induction frames with
  | nil =>
    intro cur s _ hinv
    obtain ⟨h1, h2⟩ := hinv
    cases cur with
    | nil =>
      have ha : s.alarm_on = false := by
        rw [h2]; simp [runLast]; linarith
      simp [runTrace_nil, closedRunsAux, ha]
    | cons c cs =>
      have ha : s.alarm_on = runQual sensitivity (c :: cs) := by
        rw [h2, runQual]
      simp only [runTrace_nil, closedRunsAux, List.isEmpty_cons, ha]
      simp [List.countP_cons]
  | cons f fs ih =>
    intro cur s hchain hinv
    obtain ⟨h1, h2⟩ := hinv
    obtain ⟨o, t⟩ := f
    cases o with
    | true =>
      have hstep : stepEyesOpen sensitivity s (true, t) =
          { s with closed_start := none, alarm_on := false, play_alarm := false } := by
        simp [stepEyesOpen, stepFrame]
      have hch' : List.Chain' (· ≤ ·) ([] ++ fs.map Prod.snd) := by
        refine List.Chain'.suffix (by simpa using hchain) ⟨cur ++ [t], ?_⟩
        simp
      have hinv' : curInv sensitivity []
          { s with closed_start := none, alarm_on := false, play_alarm := false } := by
        refine ⟨rfl, ?_⟩
        have : ¬ (runLast [] - ([] : List ℚ).headD 0 > sensitivity) := by
          simp [runLast]; linarith
        simpa using (decide_eq_false this).symm
      have IH := ih [] _ hch' hinv'
      rw [runTrace_cons, hstep]
      simp only [hstep] at IH ⊢
      cases cur with
      | nil =>
        have ha : s.alarm_on = false := by
          rw [h2]
          apply decide_eq_false
          simp [runLast]; linarith
        simpa [closedRunsAux, ha] using IH
      | cons c cs =>
        have ha : s.alarm_on = runQual sensitivity (c :: cs) := by
          rw [h2, runQual]
        simp only [closedRunsAux, List.isEmpty_cons, ha] at IH ⊢
        simp [List.countP_cons] at IH ⊢
        cases hq : runQual sensitivity (c :: cs) <;> simp [hq] <;> omega
    | false =>
      cases cur with
      | nil =>
        have h1' : s.closed_start = none := by simpa using h1
        have ha : s.alarm_on = false := by
          rw [h2]
          apply decide_eq_false
          simp [runLast]; linarith
        have hstep : stepEyesOpen sensitivity s (false, t) =
            { s with closed_start := some t } := by
          simp [stepEyesOpen, stepFrame, h1']
        have hch' : List.Chain' (· ≤ ·) ([t] ++ fs.map Prod.snd) := by
          simpa using hchain
        have hinv' : curInv sensitivity [t] { s with closed_start := some t } := by
          refine ⟨rfl, ?_⟩
          have hnot : ¬ (runLast [t] - ([t] : List ℚ).headD 0 > sensitivity) := by
            simp [runLast]; linarith
          have hup : ({ s with closed_start := some t } :
              DrowsinessState).alarm_on = s.alarm_on := rfl
          rw [hup, ha]
          exact (decide_eq_false hnot).symm
        have IH := ih [t] _ hch' hinv'
        rw [runTrace_cons, hstep]
        simpa [closedRunsAux, ha, hstep] using IH
      | cons c cs =>
        have h1' : s.closed_start = some c := by simpa using h1
        have hLt : runLast (c :: cs) ≤ t := by
          apply chain'_runLast_le c cs t (fs.map Prod.snd)
          simpa using hchain
        have hch' : List.Chain' (· ≤ ·) (((c :: cs) ++ [t]) ++ fs.map Prod.snd) := by
          simpa using hchain
        have hrunsEq : closedRunsAux (c :: cs) ((false, t) :: fs)
            = closedRunsAux ((c :: cs) ++ [t]) fs := by
          simp [closedRunsAux]
        have hrl : runLast ((c :: cs) ++ [t]) = t := runLast_concat (c :: cs) t
        have hhd : ((c :: cs) ++ [t]).headD 0 = c := by simp
        by_cases hcmp : t - c > sensitivity
        · cases halarm : s.alarm_on with
          | false =>
            have hstep : stepEyesOpen sensitivity s (false, t) =
                { s with alarm_on := true, total_alerts := s.total_alerts + 1,
                         play_alarm := true } := by
              simp [stepEyesOpen, stepFrame, h1', hcmp, halarm]
            have hinv' : curInv sensitivity ((c :: cs) ++ [t])
                { s with alarm_on := true, total_alerts := s.total_alerts + 1,
                         play_alarm := true } := by
              refine ⟨by simpa using h1', ?_⟩
              rw [hrl, hhd]
              simp [hcmp]
            have IH := ih ((c :: cs) ++ [t]) _ hch' hinv'
            rw [runTrace_cons, hstep, hrunsEq]
            simp only [hstep] at IH
            simp at IH
            simp [halarm]
            omega
          | true =>
            have hstep : stepEyesOpen sensitivity s (false, t) = s := by
              simp [stepEyesOpen, stepFrame, h1', hcmp, halarm]
            have hinv' : curInv sensitivity ((c :: cs) ++ [t]) s := by
              refine ⟨by simpa using h1', ?_⟩
              rw [hrl, hhd, halarm]
              simp [hcmp]
            have IH := ih ((c :: cs) ++ [t]) _ hch' hinv'
            rw [runTrace_cons, hstep, hrunsEq]
            rw [halarm] at IH
            exact IH
        · have ha : s.alarm_on = false := by
            rw [h2]
            apply decide_eq_false
            simp only [List.headD_cons]
            intro hgt
            exact hcmp (by linarith)
          have hstep : stepEyesOpen sensitivity s (false, t) = s := by
            simp [stepEyesOpen, stepFrame, h1', hcmp]
          have hinv' : curInv sensitivity ((c :: cs) ++ [t]) s := by
            refine ⟨by simpa using h1', ?_⟩
            rw [hrl, hhd, ha]
            exact (decide_eq_false hcmp).symm
          have IH := ih ((c :: cs) ++ [t]) _ hch' hinv'
          rw [runTrace_cons, hstep, hrunsEq]
          rw [ha] at IH ⊢
          exact IH

lemma getLastD_cons' (a d : ℚ) (l : List ℚ) : (a :: l).getLastD d = l.getLastD a := by
  cases l <;> rfl

lemma runLast_mem (c : ℚ) (cs : List ℚ) : runLast (c :: cs) ∈ c :: cs := by
  induction cs generalizing c with
  | nil => simp [runLast]
  | cons c' cs' ih =>
    rw [runLast_cons_cons]
    exact List.mem_cons_of_mem c (ih c')

lemma mem_le_runLast (c : ℚ) (cs : List ℚ)
    (h : List.Chain' (· ≤ ·) (c :: cs)) :
    ∀ t ∈ c :: cs, t ≤ runLast (c :: cs) := by
  induction cs generalizing c with
  | nil =>
    intro t ht
    simp at ht
    simp [runLast, ht]
  | cons c' cs' ih =>
    intro t ht
    have hcc : c ≤ c' := (List.chain'_cons.mp h).1
    have h' : List.Chain' (· ≤ ·) (c' :: cs') := (List.chain'_cons.mp h).2
    rw [runLast_cons_cons]
    rcases List.mem_cons.mp ht with rfl | ht'
    · exact le_trans hcc (ih c' h' c' (List.mem_cons_self c' cs'))
    · exact ih c' h' t ht'

/-- Effect of one closed-eyes frame when the timer is already running:
the timer is unchanged, the latch becomes latch-or-exceeded, and the
counter increments exactly on the clear-latch-and-exceeded case. -/
lemma stepFrame_timer_running (sensitivity : ℚ) (s : DrowsinessState) (c t : ℚ)
    (h : s.closed_start = some c) :
    (stepFrame sensitivity s true t).closed_start = some c ∧
    (stepFrame sensitivity s true t).alarm_on
      = (s.alarm_on || decide (t - c > sensitivity)) ∧
    (stepFrame sensitivity s true t).total_alerts
      = s.total_alerts
        + (if s.alarm_on = false ∧ t - c > sensitivity then 1 else 0) := by
  by_cases hcmp : t - c > sensitivity
  · cases ha : s.alarm_on <;> simp [stepFrame, h, hcmp, ha]
  · simp [stepFrame, h, hcmp]

/-- On a run of closed-eyes frames with the timer already at `c`, the
machine's per-frame `alertFired` outputs are exactly `specFires`. -/
lemma fires_on_closed_run (sensitivity : ℚ) (es fb : Bool) :
    ∀ (ts : List ℚ) (s : DrowsinessState) (c : ℚ),
      s.closed_start = some c →
      (frameOutputs sensitivity es fb s (ts.map (fun t => (false, t)))).map
          FrameOut.alertFired
        = specFires sensitivity c s.alarm_on ts := by
  intro ts
  induction ts with
  | nil => intro s c _; simp [frameOutputs, specFires]
  | cons t ts ih =>
    intro s c h1
    obtain ⟨hc', ha', _⟩ := stepFrame_timer_running sensitivity s c t h1
    have hfr : (frameResult sensitivity es fb s true t).2.alertFired
        = (!s.alarm_on && decide (t - c > sensitivity)) := by
      simp [frameResult, h1, Bool.and_comm]
    have hfs : (frameResult sensitivity es fb s true t).1
        = stepFrame sensitivity s true t := rfl
    simp only [List.map_cons, frameOutputs, Bool.not_false, List.map_cons]
    rw [specFires, hfr, hfs, ih (stepFrame sensitivity s true t) c hc', ha']

lemma specFires_latched (sensitivity c : ℚ) :
    ∀ ts : List ℚ, specFires sensitivity c true ts = ts.map (fun _ => false) := by
  intro ts
  induction ts with
  | nil => rfl
  | cons t ts ih => simp [specFires, ih]

lemma specFires_count (sensitivity c : ℚ) :
    ∀ ts : List ℚ, (specFires sensitivity c false ts).count true
      = if ts.any (fun t => decide (t - c > sensitivity)) then 1 else 0 := by
  intro ts
  induction ts with
  | nil => simp [specFires]
  | cons t ts ih =>
    by_cases hcmp : t - c > sensitivity
    · simp [specFires, hcmp, specFires_latched, List.count_cons]
      rw [List.count_eq_zero_of_not_mem (by simp)]
    · simp [specFires, hcmp, List.count_cons, ih]

lemma specFires_getD (sensitivity c : ℚ) :
    ∀ (ts : List ℚ) (a : Bool) (j : ℕ),
      ((specFires sensitivity c a ts).getD j false = true
        ↔ (j < ts.length ∧ a = false ∧ ts.getD j 0 - c > sensitivity ∧
            ∀ k, k < j → ts.getD k 0 - c ≤ sensitivity)) := by
  intro ts
  induction ts with
  | nil => intro a j; simp [specFires]
  | cons t ts ih =>
    intro a j
    cases j with
    | zero =>
      cases a <;> by_cases hcmp : t - c > sensitivity <;>
        simp [specFires, hcmp]
    | succ j =>
      have hih := ih (a || decide (t - c > sensitivity)) j
      simp only [specFires, List.getD_cons_succ, List.length_cons] at hih ⊢
      rw [hih]
      constructor
      · rintro ⟨hj, hor, hgt, hall⟩
        have ha : a = false := by
          cases a <;> simp at hor ⊢
        have hd : ¬ (t - c > sensitivity) := by
          cases hdec : decide (t - c > sensitivity) with
          | true => rw [ha, hdec] at hor; simp at hor
          | false => simpa using of_decide_eq_false hdec
        refine ⟨by omega, ha, hgt, ?_⟩
        intro k hk
        cases k with
        | zero => simpa using le_of_not_lt hd
        | succ k => simpa using hall k (by omega)
      · rintro ⟨hj, ha, hgt, hall⟩
        have hd : t - c ≤ sensitivity := by simpa using hall 0 (by omega)
        have hdec : decide (t - c > sensitivity) = false :=
          decide_eq_false (not_lt.mpr hd)
        refine ⟨by omega, by simp [ha, hdec], hgt, ?_⟩
        intro k hk
        simpa using hall (k + 1) (by omega)

/-- The counter increments on exactly the frames whose `alertFired`
output is set. -/
lemma step_total_fired (sensitivity : ℚ) (es fb : Bool) (s : DrowsinessState)
    (d : Bool) (t : ℚ) :
    (stepFrame sensitivity s d t).total_alerts
      = s.total_alerts
        + (if (frameResult sensitivity es fb s d t).2.alertFired = true then 1
           else 0) := by
  cases d with
  | false => simp [stepFrame, frameResult]
  | true =>
    cases hcs : s.closed_start with
    | none => simp [stepFrame, frameResult, hcs]
    | some c =>
      by_cases hcmp : t - c > sensitivity
      · cases ha : s.alarm_on <;> simp [stepFrame, frameResult, hcs, hcmp, ha]
      · simp [stepFrame, frameResult, hcs, hcmp]

/-- Total alert count along a trace equals the number of frames whose
`alertFired` output is set. -/
lemma countFired_eq_total (sensitivity : ℚ) (es fb : Bool) :
    ∀ (frames : List (Bool × ℚ)) (s : DrowsinessState),
      (runTrace sensitivity s frames).total_alerts
        = s.total_alerts
          + ((frameOutputs sensitivity es fb s frames).map
              FrameOut.alertFired).count true := by
  intro frames
  induction frames with
  | nil => intro s; simp [runTrace_nil, frameOutputs]
  | cons f fs ih =>
    intro s
    rw [runTrace_cons]
    simp only [frameOutputs, List.map_cons, List.count_cons]
    have h1 : (frameResult sensitivity es fb s (!f.1) f.2).1
        = stepEyesOpen sensitivity s f := rfl
    rw [h1, ih (stepEyesOpen sensitivity s f)]
    have h2 : (stepEyesOpen sensitivity s f).total_alerts
        = s.total_alerts
          + (if (frameResult sensitivity es fb s (!f.1) f.2).2.alertFired = true
             then 1 else 0) :=
      step_total_fired sensitivity es fb s (!f.1) f.2
    rw [h2]
    cases hf : (frameResult sensitivity es fb s (!f.1) f.2).2.alertFired <;>
      simp [hf] <;> omega

/-- Inductive invariant for the alarm latch: whenever the latch is set,
the timer is set and the time of the most recently processed frame
exceeds it by more than the threshold. -/
lemma alarm_time_bound_aux (sensitivity : ℚ) :
    ∀ (frames : List (Bool × ℚ)) (s : DrowsinessState) (lastT : ℚ),
      List.Chain' (· ≤ ·) (lastT :: frames.map Prod.snd) →
      (s.alarm_on = true →
        ∃ cs, s.closed_start = some cs ∧ lastT - cs > sensitivity) →
      ((runTrace sensitivity s frames).alarm_on = true →
        ∃ cs, (runTrace sensitivity s frames).closed_start = some cs ∧
          (frames.map Prod.snd).getLastD lastT - cs > sensitivity) := by
  intro frames
  induction frames with
  | nil =>
    intro s lastT _ hs
    simpa [runTrace_nil] using hs
  | cons f fs ih =>
    intro s lastT hchain hs
    obtain ⟨o, t⟩ := f
    simp only [List.map_cons] at hchain
    have hlt : lastT ≤ t := (List.chain'_cons.mp hchain).1
    have hch' : List.Chain' (· ≤ ·) (t :: fs.map Prod.snd) :=
      (List.chain'_cons.mp hchain).2
    rw [runTrace_cons]
    have hgl : (((o, t) :: fs).map Prod.snd).getLastD lastT
        = (fs.map Prod.snd).getLastD t := by
      simp only [List.map_cons]
      exact getLastD_cons' t lastT _
    rw [hgl]
    cases o with
    | true =>
      have hstep : stepEyesOpen sensitivity s (true, t) =
          { s with closed_start := none, alarm_on := false,
                   play_alarm := false } := by
        simp [stepEyesOpen, stepFrame]
      apply ih _ t hch'
      intro hcontra
      rw [hstep] at hcontra
      simp at hcontra
    | false =>
      cases hcs : s.closed_start with
      | none =>
        have hstep : stepEyesOpen sensitivity s (false, t) =
            { s with closed_start := some t } := by
          simp [stepEyesOpen, stepFrame, hcs]
        apply ih _ t hch'
        intro ha'
        rw [hstep] at ha'
        obtain ⟨cs, hcs', _⟩ := hs (by simpa using ha')
        rw [hcs] at hcs'
        exact absurd hcs' (by simp)
      | some c =>
        apply ih _ t hch'
        intro ha'
        by_cases hcmp : t - c > sensitivity
        · exact ⟨c, (stepFrame_timer_running sensitivity s c t hcs).1, hcmp⟩
        · have hstep : stepEyesOpen sensitivity s (false, t) = s := by
            simp [stepEyesOpen, stepFrame, hcs, hcmp]
          rw [hstep] at ha' ⊢
          obtain ⟨cs, hcs', hgt⟩ := hs ha'
          rw [hcs] at hcs'
          have hceq : cs = c := by
            injection hcs' with h
            exact h.symm
          subst hceq
          exact ⟨cs, hcs, by linarith⟩

/-! ### Lemmas about the per-frame face loop -/

lemma classify_foldl_drowsy (sensitivity : ℕ) :
    ∀ (faces : List Face) (b : Bool) (n : ℕ),
      (faces.foldl (faceStep sensitivity) (b, n)).1
        = (b && faces.all (fun f => (detectEyes f sensitivity).isEmpty)) := by
  intro faces
  induction faces with
  | nil => intro b n; simp
  | cons f fs ih =>
    intro b n
    rw [List.foldl_cons, List.all_cons]
    by_cases h : (detectEyes f sensitivity).length = 0
    · have he : (detectEyes f sensitivity).isEmpty = true := by
        rw [List.isEmpty_iff]
        exact List.length_eq_zero.mp h
      have hstep : faceStep sensitivity (b, n) f = (b, 0) := by
        simp [faceStep, h]
      rw [hstep, ih, he]
      simp
    · have he : (detectEyes f sensitivity).isEmpty = false := by
        simp only [List.isEmpty_eq_false_iff_exists_mem]
        rcases List.exists_mem_of_length_pos (Nat.pos_of_ne_zero h) with ⟨r, hr⟩
        exact ⟨r, hr⟩
      have hstep : faceStep sensitivity (b, n) f
          = (false, (detectEyes f sensitivity).length) := by
        simp [faceStep, Nat.pos_of_ne_zero h]
      rw [hstep, ih, he]
      simp
  -- classifyFrame is the foldl from (true, 0)

lemma classify_foldl_last (sensitivity : ℕ) :
    ∀ (faces : List Face) (acc : Bool × ℕ) (f : Face),
      faces.getLast? = some f →
      (faces.foldl (faceStep sensitivity) acc).2
        = (detectEyes f sensitivity).length := by
  intro faces
  induction faces with
  | nil => intro acc f h; simp at h
  | cons g gs ih =>
    intro acc f h
    cases gs with
    | nil =>
      simp only [List.getLast?_singleton, Option.some.injEq] at h
      subst h
      rfl
    | cons g' gs' =>
      have h' : (g' :: gs').getLast? = some f := by
        simpa [List.getLast?_cons_cons] using h
      rw [List.foldl_cons]
      exact ih _ f h'

/-! ### Claim theorems -/

/-- C1: for every trace of per-frame eyes-open booleans with
non-decreasing timestamps and a non-negative threshold, `total_alerts`
from the initial state increases by exactly 1 for each maximal contiguous
closed-eyes run whose elapsed time exceeds the threshold and by 0 for
runs that never exceed it (so at most one increment per episode), and
`total_alerts` is monotonically non-decreasing over the session. -/
theorem claim1_total_alerts_per_episode (sensitivity : ℚ)
    (frames : List (Bool × ℚ)) (h0 : 0 ≤ sensitivity)
    (hmono : List.Chain' (· ≤ ·) (frames.map Prod.snd)) :
    (runTrace sensitivity initState frames).total_alerts
        = countQualRuns sensitivity frames
    ∧ ∀ n m : ℕ, n ≤ m →
        (runTrace sensitivity initState (frames.take n)).total_alerts ≤
          (runTrace sensitivity initState (frames.take m)).total_alerts := by
  constructor
  · have hinv : curInv sensitivity [] initState := by
      refine ⟨rfl, ?_⟩
      have hne : ¬ (runLast [] - ([] : List ℚ).headD 0 > sensitivity) := by
        simp [runLast]; linarith
      rw [decide_eq_false hne]
      rfl
    have h := total_alerts_counts_runs sensitivity h0 frames [] initState
      (by simpa using hmono) hinv
    simpa [initState, countQualRuns, closedRuns] using h
  · intro n m hnm
    have h1 : frames.take m = frames.take n ++ (frames.take m).drop n := by
      conv_lhs => rw [← List.take_append_drop n (frames.take m)]
      rw [List.take_take, min_eq_left hnm]
    rw [h1, runTrace_append]
    exact total_alerts_run_le _ _ _

/-- Witness for C1 on a concrete trace: two closed-eyes runs, one of
elapsed time 2 s (qualifying at threshold 1.5 s) and one of elapsed time
0 s, giving exactly one alert. -/
theorem claim1_total_alerts_per_episode_witness :
    (runTrace (3/2) initState
        [(false, 0), (false, 1), (false, 2), (true, 2), (false, 3)]).total_alerts
      = countQualRuns (3/2)
          [(false, 0), (false, 1), (false, 2), (true, 2), (false, 3)]
    ∧ countQualRuns (3/2)
        [(false, 0), (false, 1), (false, 2), (true, 2), (false, 3)] = 1 := by
  refine ⟨(claim1_total_alerts_per_episode (3/2)
      [(false, 0), (false, 1), (false, 2), (true, 2), (false, 3)]
      (by norm_num)
      (by norm_num [List.chain'_cons, List.chain'_singleton])).1, ?_⟩
  norm_num [countQualRuns, closedRuns, closedRunsAux, runQual, runLast]

/-- C2: in every state reachable by the per-frame update from the
initial state along a trace with non-decreasing timestamps, a set alarm
latch implies the closed-eyes timer is set and the last processed
frame's time exceeds it by more than the threshold. -/
theorem claim2_alarm_invariant (sensitivity : ℚ) (frames : List (Bool × ℚ))
    (hmono : List.Chain' (· ≤ ·) (frames.map Prod.snd)) :
    (runTrace sensitivity initState frames).alarm_on = true →
    ∃ cs, (runTrace sensitivity initState frames).closed_start = some cs ∧
      (frames.map Prod.snd).getLastD 0 - cs > sensitivity := by
  cases frames with
  | nil =>
    intro h
    simp [runTrace_nil, initState] at h
  | cons f fs =>
    have hch : List.Chain' (· ≤ ·) (f.2 :: (f :: fs).map Prod.snd) := by
      simp only [List.map_cons]
      exact List.chain'_cons.mpr ⟨le_refl _, by simpa using hmono⟩
    have hbase : initState.alarm_on = true →
        ∃ cs, initState.closed_start = some cs ∧ f.2 - cs > sensitivity := by
      intro h
      simp [initState] at h
    have h := alarm_time_bound_aux sensitivity (f :: fs) initState f.2 hch hbase
    intro ha
    obtain ⟨cs, h1, h2⟩ := h ha
    refine ⟨cs, h1, ?_⟩
    have hgl : ((f :: fs).map Prod.snd).getLastD 0
        = ((f :: fs).map Prod.snd).getLastD f.2 := by
      simp only [List.map_cons]
      rw [getLastD_cons', getLastD_cons']
    rw [hgl]
    exact h2

/-- Witness for C2: after a 2-second closed-eyes run at threshold 1.5 s,
the alarm is on, the timer reads the run's first time 0, and the last
frame time 2 exceeds it by more than 1.5. -/
theorem claim2_alarm_invariant_witness :
    ∃ cs, (runTrace (3/2) initState
        [(false, 0), (false, 2)]).closed_start = some cs ∧
      ([(false, 0), ((false : Bool), (2 : ℚ))].map Prod.snd).getLastD 0 - cs
        > 3/2 :=
  claim2_alarm_invariant (3/2) [(false, 0), (false, 2)]
    (by norm_num [List.chain'_cons, List.chain'_singleton])
    (by norm_num [runTrace_cons, runTrace_nil, stepEyesOpen, stepFrame,
      initState])

/-- C8: from any state with the timer set and the alarm latched
(`ALERTING`), a single eyes-open frame returns the machine to `AWAKE`
(timer cleared, alarm and `play_alarm` cleared, counter unchanged), and
a following closed-eyes frame at time `t'` starts a fresh timer at
`t'` itself. -/
theorem claim8_recovery_resets_timer (sensitivity : ℚ) (s : DrowsinessState)
    (c t t' : ℚ) (_hcs : s.closed_start = some c) (_ha : s.alarm_on = true) :
    (stepEyesOpen sensitivity s (true, t)).closed_start = none
    ∧ (stepEyesOpen sensitivity s (true, t)).alarm_on = false
    ∧ (stepEyesOpen sensitivity s (true, t)).play_alarm = false
    ∧ (stepEyesOpen sensitivity s (true, t)).total_alerts = s.total_alerts
    ∧ (stepEyesOpen sensitivity (stepEyesOpen sensitivity s (true, t))
        (false, t')).closed_start = some t' := by
  refine ⟨rfl, rfl, rfl, rfl, ?_⟩
  simp [stepEyesOpen, stepFrame]

/-- Witness for C8 at the concrete alerting state reached after a
qualifying closed-eyes run. -/
theorem claim8_recovery_resets_timer_witness :
    (stepEyesOpen (3/2) ⟨some 0, true, true, 1⟩ (true, 4)).closed_start = none
    ∧ (stepEyesOpen (3/2) ⟨some 0, true, true, 1⟩ (true, 4)).alarm_on = false
    ∧ (stepEyesOpen (3/2) ⟨some 0, true, true, 1⟩ (true, 4)).play_alarm = false
    ∧ (stepEyesOpen (3/2) ⟨some 0, true, true, 1⟩ (true, 4)).total_alerts
        = (⟨some 0, true, true, 1⟩ : DrowsinessState).total_alerts
    ∧ (stepEyesOpen (3/2) (stepEyesOpen (3/2) ⟨some 0, true, true, 1⟩ (true, 4))
        (false, 5)).closed_start = some 5 :=
  claim8_recovery_resets_timer (3/2) ⟨some 0, true, true, 1⟩ 0 4 5 rfl rfl

/-- C9: applying the per-frame update with eyes open in the `AWAKE`
state (timer clear, alarm clear) any number of times leaves the timer,
the alarm latch and `total_alerts` unchanged. -/
theorem claim9_awake_idempotent (sensitivity : ℚ) (s : DrowsinessState)
    (h1 : s.closed_start = none) (h2 : s.alarm_on = false) (ts : List ℚ) :
    (runTrace sensitivity s (ts.map (fun t => (true, t)))).closed_start = none
    ∧ (runTrace sensitivity s (ts.map (fun t => (true, t)))).alarm_on = false
    ∧ (runTrace sensitivity s (ts.map (fun t => (true, t)))).total_alerts
        = s.total_alerts := by
  induction ts generalizing s with
  | nil =>
    simp only [List.map_nil, runTrace_nil]
    simp [h1, h2]
  | cons t ts ih =>
    have hstep : stepEyesOpen sensitivity s (true, t) =
        { s with closed_start := none, alarm_on := false,
                 play_alarm := false } := by
      simp [stepEyesOpen, stepFrame]
    simp only [List.map_cons, runTrace_cons, hstep]
    exact ih _ rfl rfl

/-- Witness for C9: three eyes-open frames from the initial `AWAKE`
state change nothing. -/
theorem claim9_awake_idempotent_witness :
    (runTrace 2 initState
        (([0, 1, 2] : List ℚ).map (fun t => (true, t)))).closed_start = none
    ∧ (runTrace 2 initState
        (([0, 1, 2] : List ℚ).map (fun t => (true, t)))).alarm_on = false
    ∧ (runTrace 2 initState
        (([0, 1, 2] : List ℚ).map (fun t => (true, t)))).total_alerts
        = initState.total_alerts :=
  claim9_awake_idempotent 2 initState rfl rfl [0, 1, 2]

/-- C3: a frame is classified drowsy iff every detected face has zero
detected eye Regions; a frame with zero detected faces is drowsy; and a
frame with two faces of which exactly one has detected eyes is not
drowsy (in either order). -/
theorem claim3_drowsy_iff_all_faces_eyeless (sensitivity : ℕ)
    (faces : List Face) :
    ((classifyFrame sensitivity faces).1 = true ↔
      ∀ f ∈ faces, detectEyes f sensitivity = [])
    ∧ (classifyFrame sensitivity ([] : List Face)).1 = true
    ∧ (∀ f g : Face, detectEyes f sensitivity ≠ [] →
        detectEyes g sensitivity = [] →
        (classifyFrame sensitivity [f, g]).1 = false ∧
        (classifyFrame sensitivity [g, f]).1 = false) := by
  refine ⟨?_, rfl, ?_⟩
  · rw [classifyFrame, classify_foldl_drowsy]
    simp [List.all_eq_true, List.isEmpty_iff]
  · intro f g hf hg
    constructor <;>
    · rw [classifyFrame, classify_foldl_drowsy]
      simp [List.isEmpty_iff, hf, hg]

/-- Witness for C3: one face with a detected eye next to one face
without, in both orders, classifies as eyes open. -/
theorem claim3_drowsy_iff_all_faces_eyeless_witness :
    (classifyFrame 2 [faceWithEyes, faceNoEyes]).1 = false
    ∧ (classifyFrame 2 [faceNoEyes, faceWithEyes]).1 = false :=
  (claim3_drowsy_iff_all_faces_eyeless 2 [faceWithEyes, faceNoEyes]).2.2
    faceWithEyes faceNoEyes (by decide) rfl

/-- C10: with at least one detected face, the reported `eyes_detected`
metric is the eye count of the **last** face in the detector's list
only; in particular a frame with an eyed face followed by an eyeless
face reports `(drowsy, eyes_detected) = (false, 0)`: classified eyes
open yet showing a zero count. -/
theorem claim10_eyes_detected_last_face (sensitivity : ℕ)
    (faces : List Face) (f : Face) (hlast : faces.getLast? = some f) :
    (classifyFrame sensitivity faces).2 = (detectEyes f sensitivity).length
    ∧ (∀ g k : Face, detectEyes g sensitivity ≠ [] →
        detectEyes k sensitivity = [] →
        classifyFrame sensitivity [g, k] = (false, 0)) := by
  constructor
  · exact classify_foldl_last sensitivity faces (true, 0) f hlast
  · intro g k hg hk
    have h1 : (classifyFrame sensitivity [g, k]).1 = false := by
      rw [classifyFrame, classify_foldl_drowsy]
      simp [List.isEmpty_iff, hg]
    have h2 : (classifyFrame sensitivity [g, k]).2 = 0 := by
      have h := classify_foldl_last sensitivity [g, k] (true, 0) k rfl
      rw [classifyFrame, h, hk]
      rfl
    exact Prod.ext h1 h2

/-- Witness for C10: the eyed-then-eyeless two-face frame reports the
last face's zero count while being classified eyes open. -/
theorem claim10_eyes_detected_last_face_witness :
    (classifyFrame 2 [faceWithEyes, faceNoEyes]).2
        = (detectEyes faceNoEyes 2).length
    ∧ classifyFrame 2 [faceWithEyes, faceNoEyes] = (false, 0) := by
  have h := claim10_eyes_detected_last_face 2 [faceWithEyes, faceNoEyes]
    faceNoEyes rfl
  exact ⟨h.1, h.2 faceWithEyes faceNoEyes (by decide) rfl⟩

/-- C6 counterexample: when the camera fails to open, a session start
(the capture is constructed) ends with zero release calls — the
open-failure branch (lines 175-178) never reaches the `finally` release
path, contradicting the claim that the release path runs on every exit
including failure to open the camera. -/
theorem claim6_no_release_on_open_failure :
    SessionAction.acquire ∈ sessionActions false LoopOutcome.stopped
    ∧ (sessionActions false LoopOutcome.stopped).count SessionAction.release
        = 0 := by
  constructor
  · exact List.mem_cons_self _ _
  · rfl

/-- C6 amended: for every session whose camera opens, exactly one
release occurs on every exit of the detection loop (normal stop, read
failure, matcher fault); when the camera fails to open, the session ends
with an error message and no release call. -/
theorem claim6_release_amended :
    (∀ o : LoopOutcome,
      (sessionActions true o).count SessionAction.release = 1)
    ∧ (∀ o : LoopOutcome,
      (sessionActions false o).count SessionAction.release = 0) := by
  constructor <;> intro o <;> cases o <;> rfl

/-- C4 counterexample: the claim says the lenient pass uses a coarser
scale step (a larger `scaleFactor` stride) than the strict pass; in the
code the strict pass uses `scaleFactor = 1.1` and the lenient pass
`1.05`, a strictly finer step, here at the default sensitivity 2. -/
theorem claim4_scale_step_counterexample :
    ¬ ((strictParams 2).scaleFactor < (lenientParams 2).scaleFactor)
    ∧ (lenientParams 2).scaleFactor < (strictParams 2).scaleFactor := by
  constructor <;> norm_num [strictParams, lenientParams]

/-- C4 amended: the eye detector runs a second (lenient) pass exactly
when the strict pass returns zero eye Regions; the lenient configuration
uses a *finer* scale step than the strict pass (1.05 against 1.1), a
neighbor threshold reduced by one but floored at one, a smaller minimum
eye size, and no maximum-size bound; the returned eye Regions are those
of whichever pass produced a non-empty result (empty when both are
empty); and a strict-pass-empty, lenient-pass-non-empty frame counts as
eyes open. -/
theorem claim4_two_pass_fallback_amended (sensitivity : ℕ) (f : Face) :
    (((detectEyesPasses f sensitivity).2 = 2 ↔ f (strictParams sensitivity) = [])
      ∧ ((detectEyesPasses f sensitivity).2 = 1 ↔
          f (strictParams sensitivity) ≠ []))
    ∧ ((lenientParams sensitivity).scaleFactor
          < (strictParams sensitivity).scaleFactor
      ∧ (lenientParams sensitivity).minNeighbors = max 1 (sensitivity - 1)
      ∧ (lenientParams sensitivity).minSize.1
          < (strictParams sensitivity).minSize.1
      ∧ (lenientParams sensitivity).minSize.2
          < (strictParams sensitivity).minSize.2
      ∧ (lenientParams sensitivity).maxSize = none
      ∧ (strictParams sensitivity).maxSize = some (80, 80))
    ∧ ((f (strictParams sensitivity) ≠ [] →
          detectEyes f sensitivity = f (strictParams sensitivity))
      ∧ (f (strictParams sensitivity) = [] →
          detectEyes f sensitivity = f (lenientParams sensitivity))
      ∧ (f (strictParams sensitivity) = [] →
          f (lenientParams sensitivity) = [] → detectEyes f sensitivity = []))
    ∧ (f (strictParams sensitivity) = [] →
        f (lenientParams sensitivity) ≠ [] →
        (classifyFrame sensitivity [f]).1 = false) := by
  refine ⟨⟨?_, ?_⟩, ⟨?_, rfl, ?_, ?_, rfl, rfl⟩, ⟨?_, ?_, ?_⟩, ?_⟩
  · by_cases h : (f (strictParams sensitivity)).length = 0
    · have h' : f (strictParams sensitivity) = [] := List.length_eq_zero.mp h
      simp [detectEyesPasses, h, h']
    · have h' : f (strictParams sensitivity) ≠ [] := by
        simpa [List.length_eq_zero] using h
      simp [detectEyesPasses, h, h']
  · by_cases h : (f (strictParams sensitivity)).length = 0
    · have h' : f (strictParams sensitivity) = [] := List.length_eq_zero.mp h
      simp [detectEyesPasses, h, h']
    · have h' : f (strictParams sensitivity) ≠ [] := by
        simpa [List.length_eq_zero] using h
      simp [detectEyesPasses, h, h']
  · norm_num [strictParams, lenientParams]
  · norm_num [strictParams, lenientParams]
  · norm_num [strictParams, lenientParams]
  · intro h
    have h' : ¬ (f (strictParams sensitivity)).length = 0 := by
      simpa [List.length_eq_zero] using h
    simp [detectEyes, detectEyesPasses, h']
  · intro h
    simp [detectEyes, detectEyesPasses, h]
  · intro h1 h2
    simp [detectEyes, detectEyesPasses, h1, h2]
  · intro h1 h2
    have he : detectEyes f sensitivity ≠ [] := by
      simp [detectEyes, detectEyesPasses, h1]
      exact h2
    rw [classifyFrame, classify_foldl_drowsy]
    simp [List.isEmpty_iff, he]

/-- Witness for C4 at a concrete face whose strict pass is empty and
whose lenient pass finds one eye: a second pass is made, the lenient
result is returned, and the frame counts as eyes open. -/
theorem claim4_two_pass_fallback_amended_witness :
    (detectEyesPasses faceLenientOnly 2).2 = 2
    ∧ detectEyes faceLenientOnly 2 = faceLenientOnly (lenientParams 2)
    ∧ (classifyFrame 2 [faceLenientOnly]).1 = false := by
  have h := claim4_two_pass_fallback_amended 2 faceLenientOnly
  exact ⟨h.1.1.mpr rfl, h.2.2.1.2.1 rfl, h.2.2.2 rfl (by decide)⟩

/-- C5 counterexample: on the trace closed(0 s), closed(2 s),
closed(3 s), threshold 1.5 s, sound enabled, the alert edge fires only
at the second frame, but the audio element is emitted at both the
second and the third frame while the machine stays in `ALERTING`: the
alarm sound is driven by the `play_alarm` level (lines 279-284), which
stays set across subsequent frames, so it is repeated rather than
one-shot. -/
theorem claim5_audio_repeats_counterexample :
    ((frameOutputs (3/2) true true initState
        [(false, 0), (false, 2), (false, 3)]).map FrameOut.alertFired)
      = [false, true, false]
    ∧ ((frameOutputs (3/2) true true initState
        [(false, 0), (false, 2), (false, 3)]).map FrameOut.audioEmitted)
      = [false, true, true]
    ∧ (runTrace (3/2) initState
        [(false, 0), (false, 2), (false, 3)]).alarm_on = true := by
  refine ⟨?_, ?_, ?_⟩ <;>
    norm_num [frameOutputs, frameResult, stepFrame, stepEyesOpen,
      runTrace_cons, runTrace_nil, initState]

/-- C5 amended: the alert edge `alertFired` is set exactly when the
alarm latch transitions false→true; along any monotone trace from the
initial state it is set exactly once per qualifying closed-eyes episode;
the counter increments and the Firebase push fire exactly on edge
frames; but the alarm audio is level-driven — emitted whenever the
post-frame `play_alarm` is set with sound enabled, hence repeated on
every further closed frame of an alerting episode, not once. -/
theorem claim5_edge_one_shot_amended (sensitivity : ℚ)
    (frames : List (Bool × ℚ)) (h0 : 0 ≤ sensitivity)
    (hmono : List.Chain' (· ≤ ·) (frames.map Prod.snd)) :
    (((frameOutputs sensitivity true true initState frames).map
        FrameOut.alertFired).count true = countQualRuns sensitivity frames)
    ∧ (∀ (es fb d : Bool) (s : DrowsinessState) (t : ℚ),
        ((frameResult sensitivity es fb s d t).2.alertFired = true
          ↔ (s.alarm_on = false ∧
              (stepFrame sensitivity s d t).alarm_on = true)))
    ∧ (∀ (es fb d : Bool) (s : DrowsinessState) (t : ℚ),
        (stepFrame sensitivity s d t).total_alerts
          = s.total_alerts
            + (if (frameResult sensitivity es fb s d t).2.alertFired = true
               then 1 else 0))
    ∧ (∀ (es fb d : Bool) (s : DrowsinessState) (t : ℚ),
        (frameResult sensitivity es fb s d t).2.firebasePushed
          = ((frameResult sensitivity es fb s d t).2.alertFired && fb))
    ∧ (∀ (fb : Bool) (s : DrowsinessState) (c t : ℚ),
        s.closed_start = some c → s.alarm_on = true → s.play_alarm = true →
        t - c > sensitivity →
        (frameResult sensitivity true fb s true t).2.alertFired = false ∧
        (frameResult sensitivity true fb s true t).2.audioEmitted = true) := by
  refine ⟨?_, ?_, ?_, ?_, ?_⟩
  · have hinv : curInv sensitivity [] initState := by
      refine ⟨rfl, ?_⟩
      have hne : ¬ (runLast [] - ([] : List ℚ).headD 0 > sensitivity) := by
        simp [runLast]; linarith
      rw [decide_eq_false hne]
      rfl
    have h1 := total_alerts_counts_runs sensitivity h0 frames [] initState
      (by simpa using hmono) hinv
    have h2 := countFired_eq_total sensitivity true true frames initState
    have e1 : initState.total_alerts = 0 := rfl
    have e2 : initState.alarm_on = false := rfl
    rw [e2, e1] at h1
    rw [e1] at h2
    simp only [Bool.false_eq_true, if_false, add_zero, zero_add] at h1 h2
    rw [← h2]
    simpa [countQualRuns, closedRuns] using h1
  · intro es fb d s t
    cases d with
    | false => simp [frameResult, stepFrame]
    | true =>
      cases hcs : s.closed_start with
      | none => simp [frameResult, stepFrame, hcs]
      | some c =>
        by_cases hcmp : t - c > sensitivity
        · cases ha : s.alarm_on <;>
            simp [frameResult, stepFrame, hcs, hcmp, ha]
        · simp [frameResult, stepFrame, hcs, hcmp]
  · intro es fb d s t
    exact step_total_fired sensitivity es fb s d t
  · intro es fb d s t
    rfl
  · intro fb s c t hcs ha hp hcmp
    constructor
    · simp [frameResult, hcs, hcmp, ha]
    · simp [frameResult, stepFrame, hcs, hcmp, ha, hp]

/-- Witness for C5 (amended) on a concrete qualifying episode: the edge
count equals the one qualifying run. -/
theorem claim5_edge_one_shot_amended_witness :
    ((frameOutputs (3/2) true true initState
        [(false, 0), (false, 2)]).map FrameOut.alertFired).count true
      = countQualRuns (3/2) [(false, 0), (false, 2)]
    ∧ countQualRuns (3/2) [(false, 0), (false, 2)] = 1 := by
  refine ⟨(claim5_edge_one_shot_amended (3/2) [(false, 0), (false, 2)]
      (by norm_num)
      (by norm_num [List.chain'_cons, List.chain'_singleton])).1, ?_⟩
  norm_num [countQualRuns, closedRuns, closedRunsAux, runQual, runLast]

/-- C7: on a contiguous closed-eyes run with non-decreasing timestamps
`t0 :: ts` and non-negative threshold, (i) if the run's elapsed time
never exceeds the threshold (in particular a 1.4 s run at threshold
1.5 s, or even exactly 1.5 s — the comparison is strictly
greater-than), no alert ever fires; (ii) if the elapsed time exceeds the
threshold (e.g. a 1.6 s run), the alert fires exactly once; (iii) frame
`j` fires iff its own time exceeds `t0` by more than the threshold and
no earlier frame did — i.e. the first frame observed past the mark; in
particular frame 0 never fires: the comparison is first evaluated one
frame after `closed_start` is set. -/
theorem claim7_strict_threshold_timing (sensitivity t0 : ℚ) (ts : List ℚ)
    (h0 : 0 ≤ sensitivity)
    (hmono : List.Chain' (· ≤ ·) (t0 :: ts)) :
    (runLast (t0 :: ts) - t0 ≤ sensitivity →
      ((frameOutputs sensitivity true true initState
          ((t0 :: ts).map (fun t => (false, t)))).map
        FrameOut.alertFired).count true = 0)
    ∧ (runLast (t0 :: ts) - t0 > sensitivity →
      ((frameOutputs sensitivity true true initState
          ((t0 :: ts).map (fun t => (false, t)))).map
        FrameOut.alertFired).count true = 1)
    ∧ (∀ j : ℕ,
        (((frameOutputs sensitivity true true initState
            ((t0 :: ts).map (fun t => (false, t)))).map
          FrameOut.alertFired).getD j false = true
        ↔ (j < (t0 :: ts).length ∧ (t0 :: ts).getD j 0 - t0 > sensitivity ∧
            ∀ k, k < j → (t0 :: ts).getD k 0 - t0 ≤ sensitivity))) := by
  have hs1 : (frameResult sensitivity true true initState true t0).1
      = ⟨some t0, false, false, 0⟩ := by
    simp [frameResult, stepFrame, initState]
  have hhead : (frameResult sensitivity true true initState true t0).2.alertFired
      = false := by
    simp [frameResult, initState]
  have hF : ((frameOutputs sensitivity true true initState
      ((t0 :: ts).map (fun t => (false, t)))).map FrameOut.alertFired)
      = false :: specFires sensitivity t0 false ts := by
    simp only [List.map_cons, frameOutputs, Bool.not_false, List.map_cons]
    rw [hhead, hs1]
    have htail := fires_on_closed_run sensitivity true true ts
      ⟨some t0, false, false, 0⟩ t0 rfl
    simpa using htail
  refine ⟨?_, ?_, ?_⟩
  · intro hle
    rw [hF]
    have hall : ts.any (fun t => decide (t - t0 > sensitivity)) = false := by
      rw [List.any_eq_false]
      intro t ht
      have h1 : t ≤ runLast (t0 :: ts) :=
        mem_le_runLast t0 ts hmono t (List.mem_cons_of_mem t0 ht)
      simp only [decide_eq_true_eq]
      intro hgt
      have : t - t0 ≤ sensitivity := by linarith
      linarith
    simp [List.count_cons, specFires_count, hall]
  · intro hgt
    rw [hF]
    cases ts with
    | nil =>
      exfalso
      simp [runLast] at hgt
      linarith
    | cons t1 ts' =>
      have hrl : runLast (t0 :: t1 :: ts') = runLast (t1 :: ts') :=
        runLast_cons_cons t0 t1 ts'
      rw [hrl] at hgt
      have hany : (t1 :: ts').any (fun t => decide (t - t0 > sensitivity))
          = true := by
        rw [List.any_eq_true]
        exact ⟨runLast (t1 :: ts'), runLast_mem t1 ts', by
          simpa using hgt⟩
      simp [List.count_cons, specFires_count, hany]
  · intro j
    rw [hF]
    cases j with
    | zero =>
      simp only [List.getD_cons_zero, List.length_cons]
      constructor
      · intro h
        exact absurd h (by simp)
      · rintro ⟨-, hgt, -⟩
        exfalso
        have : t0 - t0 > sensitivity := hgt
        simp at this
        linarith
    | succ j =>
      simp only [List.getD_cons_succ, List.length_cons]
      rw [specFires_getD]
      constructor
      · rintro ⟨hj, -, hgt, hall⟩
        refine ⟨by omega, hgt, ?_⟩
        intro k hk
        cases k with
        | zero =>
          simp only [List.getD_cons_zero]
          linarith
        | succ k => simpa using hall k (by omega)
      · rintro ⟨hj, hgt, hall⟩
        refine ⟨by omega, rfl, hgt, ?_⟩
        intro k hk
        simpa using hall (k + 1) (by omega)

/-- Witness for C7 on a concrete 1.6-second run at threshold 1.5 s:
frames at 0 s, 1 s, 1.6 s fire exactly one alert. -/
theorem claim7_strict_threshold_timing_witness :
    ((frameOutputs (3/2) true true initState
        (([0, 1, 8/5] : List ℚ).map (fun t => (false, t)))).map
      FrameOut.alertFired).count true = 1 := by
  have h := claim7_strict_threshold_timing (3/2) 0 [1, 8/5] (by norm_num)
    (by norm_num [List.chain'_cons, List.chain'_singleton])
  exact h.2.1 (by norm_num [runLast])

end SmartRail
